import Mathlib

/-!
Verification of the SimpleLink serial bootloader client
(`SerialBootloaderInterface` from the ROM-bootloader extraction notebook).

Bytes are modelled as `Nat` values below 256; byte strings as `List Nat`.
Each method of the Python class is embedded as a pure function of its
arguments and of the byte buffers the serial device supplies as responses.
Exceptions raised by the Python code (`ValueError`, `AssertionError`,
`IndexError`, `OverflowError`) are modelled by an explicit error type, with
one constructor per distinct raise site.
-/

deriving instance DecidableEq for Except

/-- The fixed 2-byte acknowledgment token: `self.ACK = bytes([0x00, 0xcc])`. -/
def ACK : List Nat := [0x00, 0xCC]

/-- The fixed 2-byte negative-acknowledgment token: `self.NACK = bytes([0x00, 0x33])`. -/
def NACK : List Nat := [0x00, 0x33]

/-- The `self.status_val` dictionary, in insertion order. -/
def status_val : List (String × Nat) :=
  [("COMMAND_RET_SUCCESS", 0x40),
   ("COMMAND_RET_UNKNOWN_CMD", 0x41),
   ("COMMAND_RET_INVALID_CMD", 0x42),
   ("COMMAND_RET_INVALID_ADR", 0x43),
   ("COMMAND_RET_FLASH_FAIL", 0x44)]

/-- The name the error message of `read_memory_block` attaches to a status
byte: `list(self.status_val.keys())[list(self.status_val.values()).index(status)]`.
Python's `list.index` raises `ValueError` when the status byte is not a value
of the dictionary; that case is `none` here. -/
def status_name (s : Nat) : Option String :=
  (status_val.find? (fun p => p.2 == s)).map (fun p => p.1)

/-- One lowercase hexadecimal digit, as produced by Python's `bytes.hex()`. -/
def hexDigit (n : Nat) : Char :=
  if n < 10 then Char.ofNat (48 + n) else Char.ofNat (87 + n)

/-- The two lowercase hexadecimal digits of one byte. -/
def byteHex (b : Nat) : List Char := [hexDigit (b / 16), hexDigit (b % 16)]

/-- Python `ret.hex()`: the lowercase hexadecimal encoding of a byte string. -/
def hexEncode (l : List Nat) : List Char := l.flatMap byteHex

/-- The distinct failure modes of the client, one constructor per raise site:
`badHandshake` is the `ValueError` of `__init__` (carrying the hex-encoded
reply), `pingNotAcked` the `AssertionError` of `ping`, `deviceError` the
`ValueError` of the status check in `read_memory_block` (carrying the status
name from `status_val`), `statusNameNotFound` the `ValueError` that
`list.index` raises inside that same error path when the status byte is not in
`status_val`, `incompleteTransfer` the `AssertionError`
"Did not receive all bytes..." of `read_memory_block`, `emptyStatusResponse`
the `IndexError` of `list(resp)[-1]` in `get_status`, `byteOutOfRange` the
`ValueError` of `bytearray([...])` for a byte outside 0..255, and
`addrOverflow` the `OverflowError` of `addr.to_bytes(4, byteorder='big')`. -/
inductive BLError where
  | badHandshake (hexReply : List Char)
  | pingNotAcked
  | deviceError (name : String)
  | statusNameNotFound (status : Nat)
  | incompleteTransfer
  | emptyStatusResponse
  | byteOutOfRange
  | addrOverflow
  deriving DecidableEq, Repr

/-- The handshake check of `__init__`, as a function of the reply `ret` read
after writing the sync pattern `55 55`: success exactly when `ret == self.ACK`,
otherwise the `ValueError` reporting `ret.hex()`. The source performs this
check once, with no retry loop. -/
def handshake (ret : List Nat) : Except BLError Unit :=
  if ret = ACK then Except.ok () else Except.error (.badHandshake (hexEncode ret))

/-- `get_status`, as a function of the response buffer: `return list(resp)[-1]`
returns the last byte; on an empty buffer the `[-1]` access raises
`IndexError`. -/
def get_status (resp : List Nat) : Except BLError Nat :=
  match resp.getLast? with
  | none => Except.error .emptyStatusResponse
  | some b => Except.ok b

/-- Big-endian byte encoding, `v.to_bytes(n, byteorder='big')`:
most significant byte first. -/
def toBytesBE (v : Nat) : Nat → List Nat
  | 0 => []
  | n + 1 => v / 256 ^ n % 256 :: toBytesBE v n

/-- The checksum of `read_memory_block`: the sum of all payload bytes,
reduced to a byte (`chk & 0xff`, i.e. modulo 256). -/
def checksum (body : List Nat) : Nat := body.sum % 256

/-- The command body (`payload` in the source) of `read_memory_block`:
opcode `0x2A`, the 4 big-endian address bytes, the access type `0x0`
(byte access) and the access count. -/
def block_body (addr count : Nat) : List Nat :=
  0x2A :: (toBytesBE addr 4 ++ [0x00, count])

/-- The full frame `read_memory_block` transmits:
`packet = bytearray([size, chk]) + payload`, with `size = 9` hardcoded. -/
def block_packet (addr count : Nat) : List Nat :=
  9 :: checksum (block_body addr count) :: block_body addr count

/-- The frame as the specification's words describe it: the command body
prefixed by the total BODY length and the checksum. Stated only to be
compared with `block_packet`, the frame the source builds. -/
def block_packet_spec (addr count : Nat) : List Nat :=
  (block_body addr count).length
    :: checksum (block_body addr count) :: block_body addr count

/-- The index of the first occurrence of `b` in `l`, if any. -/
def findIndex (b : Nat) : List Nat → Option Nat
  | [] => none
  | x :: xs => if x = b then some 0 else (findIndex b xs).map (· + 1)

/-- Python `resp.find(0xcc, 0)`: the index of the first occurrence, or -1
when the byte does not occur. -/
def pyFind (l : List Nat) (b : Nat) : Int :=
  match findIndex b l with
  | some i => (i : Int)
  | none => -1

/-- The payload extraction of `read_memory_block`:
`ind = resp.find(0xcc, 0) + 3` followed by the slice
`resp[ind : ind + no_of_access]`. Since `find` returns at least -1, `ind`
is at least 2 and the Python slice is the drop/take below. -/
def extract_payload (resp : List Nat) (count : Nat) : List Nat :=
  (resp.drop (pyFind resp 0xCC + 3).toNat).take count

/-- The tail of `read_memory_block` after payload extraction: the
`get_status()` call, the status check raising `ValueError` for a non-success
status (with the name lookup that itself raises when the status byte is not in
`status_val`), and the `assert len(resp) == no_of_access` length check. -/
def block_check (count : Nat) (payload statusResp : List Nat) :
    Except BLError (List Nat) :=
  match get_status statusResp with
  | Except.error e => Except.error e
  | Except.ok status =>
    if status = 0x40 then
      if payload.length = count then Except.ok payload
      else Except.error .incompleteTransfer
    else
      match status_name status with
      | some n => Except.error (.deviceError n)
      | none => Except.error (.statusNameNotFound status)

/-- `read_memory_block(addr, no_of_access)`, as a function of the response
buffer `resp` read after the settle delay and of the buffer `statusResp` the
embedded `get_status()` exchange reads. `addr.to_bytes(4, byteorder='big')`
raises `OverflowError` for an address of 2^32 or more, and
`bytearray([access_type, no_of_access])` raises `ValueError` for a count of
256 or more; both happen during packet construction, before any serial
write. -/
def read_memory_block (addr count : Nat) (resp statusResp : List Nat) :
    Except BLError (List Nat) :=
  if addr < 2 ^ 32 then
    if count < 256 then
      block_check count (extract_payload resp count) statusResp
    else Except.error .byteOutOfRange
  else Except.error .addrOverflow

/-- The sequence of `ser.write` calls one `read_memory_block` invocation
performs, in order: the command frame, the 2-byte token `[0x00, 0xcc]`
written after reading the response, then the two writes of the embedded
`get_status()` (its command frame `03 23 23` and its trailing `0xcc`). All
four writes happen unconditionally once the packet is built; when packet
construction raises (address of 2^32 or more, count of 256 or more), nothing
at all is written. -/
def read_memory_block_writes (addr count : Nat) : List (List Nat) :=
  if addr < 2 ^ 32 then
    if count < 256 then
      [block_packet addr count, [0x00, 0xCC], [0x03, 0x23, 0x23], [0xCC]]
    else []
  else []

/-- The `for i in tqdm(range(blocks))` loop of `read_memory_region`:
`data += self.read_memory_block(addr_start, 253); addr_start += 253`,
repeated `n` times from address `a`. `mem a c` stands for the bytes a
successful `read_memory_block(a, c)` returns. -/
def region_loop (mem : Nat → Nat → List Nat) : Nat → Nat → List Nat
  | _, 0 => []
  | a, n + 1 => mem a 253 ++ region_loop mem (a + 253) n

/-- `read_memory_region(addr_start, addr_stop)`: `blocks = (addr_stop -
addr_start) // 253` full 253-byte block reads at consecutive addresses,
then one final `read_memory_block(addr_start, addr_stop - addr_start)` for
the advanced `addr_start`, all concatenated in order. -/
def read_memory_region (mem : Nat → Nat → List Nat)
    (addr_start addr_stop : Nat) : List Nat :=
  region_loop mem addr_start ((addr_stop - addr_start) / 253) ++
    mem (addr_start + 253 * ((addr_stop - addr_start) / 253))
      (addr_stop - (addr_start + 253 * ((addr_stop - addr_start) / 253)))

/-- The `(address, count)` pairs requested by the full-block loop of
`read_memory_region`: `n` requests of 253 bytes at consecutive addresses
starting from `a`. -/
def trace_loop : Nat → Nat → List (Nat × Nat)
  | _, 0 => []
  | a, n + 1 => (a, 253) :: trace_loop (a + 253) n

/-- The sequence of `(address, count)` block-read requests
`read_memory_region(addr_start, addr_stop)` issues, in order: the full-block
requests followed by the final remainder request. -/
def region_trace (addr_start addr_stop : Nat) : List (Nat × Nat) :=
  trace_loop addr_start ((addr_stop - addr_start) / 253) ++
    [(addr_start + 253 * ((addr_stop - addr_start) / 253),
      addr_stop - (addr_start + 253 * ((addr_stop - addr_start) / 253)))]

/-! ## Helper lemmas -/

theorem toBytesBE_length (v n : Nat) : (toBytesBE v n).length = n := by
  induction n with
  | zero => rfl
  | succ n ih => simp [toBytesBE, ih]

theorem toBytesBE_lt (v n : Nat) : ∀ b ∈ toBytesBE v n, b < 256 := by
  induction n with
  | zero => simp [toBytesBE]
  | succ n ih =>
    simp only [toBytesBE, List.mem_cons]
    rintro b (rfl | hb)
    · exact Nat.mod_lt _ (by norm_num)
    · exact ih b hb

theorem toBytesBE_foldl (v n : Nat) :
    ∀ a, (toBytesBE v n).foldl (fun acc b => 256 * acc + b) a
      = a * 256 ^ n + v % 256 ^ n := by
  induction n with
  | zero => intro a; simp [toBytesBE, Nat.mod_one]
  | succ n ih =>
    intro a
    simp only [toBytesBE, List.foldl_cons]
    rw [ih, Nat.mod_pow_succ]
    ring

theorem sum_set_add (l : List Nat) (i b : Nat) (h : i < l.length) :
    (l.set i b).sum + l.getD i 0 = l.sum + b := by
  induction l generalizing i with
  | nil => simp at h
  | cons x xs ih =>
    cases i with
    | zero => simp [List.sum_cons]; omega
    | succ i =>
      simp only [List.set_cons_succ, List.sum_cons, List.getD_cons_succ]
      have := ih i (by simpa using h)
      omega

theorem checksum_set_ne (l : List Nat) (i b : Nat) (hi : i < l.length)
    (hl : ∀ x ∈ l, x < 256) (hb : b < 256) (hne : b ≠ l.getD i 0) :
    checksum (l.set i b) ≠ checksum l := by
  intro hEq
  have ha : l.getD i 0 < 256 := by
    rw [List.getD_eq_getElem l 0 hi]
    exact hl _ (List.getElem_mem hi)
  have hsum := sum_set_add l i b hi
  have h1 : (l.set i b).sum ≡ l.sum [MOD 256] := hEq
  have h2 : (l.set i b).sum + l.getD i 0 ≡ l.sum + l.getD i 0 [MOD 256] :=
    h1.add_right _
  rw [hsum] at h2
  have h3 : b ≡ l.getD i 0 [MOD 256] := Nat.ModEq.add_left_cancel' _ h2
  have : b = l.getD i 0 := by
    have := h3
    unfold Nat.ModEq at this
    rwa [Nat.mod_eq_of_lt hb, Nat.mod_eq_of_lt ha] at this
  exact hne this

theorem findIndex_eq_none (b : Nat) (l : List Nat) (h : ∀ x ∈ l, x ≠ b) :
    findIndex b l = none := by
  induction l with
  | nil => rfl
  | cons x xs ih =>
    simp only [findIndex]
    rw [if_neg (h x (by simp)), ih (fun y hy => h y (by simp [hy]))]
    rfl

theorem findIndex_eq_some (b : Nat) (l : List Nat) (i : Nat) (hi : i < l.length)
    (hb : l.getD i 0 = b) (hfirst : ∀ j, j < i → l.getD j 0 ≠ b) :
    findIndex b l = some i := by
  induction l generalizing i with
  | nil => simp at hi
  | cons x xs ih =>
    cases i with
    | zero =>
      simp only [List.getD_cons_zero] at hb
      simp [findIndex, hb]
    | succ i =>
      have hx : x ≠ b := by
        have := hfirst 0 (Nat.succ_pos i)
        simpa using this
      simp only [findIndex, if_neg hx]
      rw [ih i (by simpa using hi) (by simpa using hb)
          (fun j hj => by
            have := hfirst (j + 1) (by omega)
            simpa using this)]
      rfl

theorem region_loop_eq_flatMap (mem : Nat → Nat → List Nat) (n : Nat) :
    ∀ a, region_loop mem a n = (trace_loop a n).flatMap (fun p => mem p.1 p.2) := by
  induction n with
  | zero => intro a; rfl
  | succ n ih => intro a; simp [region_loop, trace_loop, ih]

theorem trace_loop_eq_range (n : Nat) :
    ∀ a, trace_loop a n = (List.range n).map (fun i => (a + 253 * i, 253)) := by
  induction n with
  | zero => intro a; rfl
  | succ n ih =>
    intro a
    rw [List.range_succ_eq_map]
    simp only [trace_loop, List.map_cons, ih, List.map_map]
    congr 1
    refine List.map_congr_left fun i _ => ?_
    simp only [Function.comp_apply, Prod.mk.injEq, Nat.succ_eq_add_one, and_true]
    omega

theorem region_loop_length (mem : Nat → Nat → List Nat)
    (hmem : ∀ a c, (mem a c).length = c) (n : Nat) :
    ∀ a, (region_loop mem a n).length = 253 * n := by
  induction n with
  | zero => intro a; rfl
  | succ n ih =>
    intro a
    simp only [region_loop, List.length_append, hmem, ih]
    ring

/-! ## Claims -/

/-- C10: `get_status()` requires a non-empty device response: it returns the
last byte of the response when at least one byte was buffered, and for an empty
response it fails with the unguarded index error of `list(resp)[-1]` rather
than any protocol-level error. -/
theorem C10_get_status_last (resp : List Nat) :
    (resp = [] → get_status resp = Except.error BLError.emptyStatusResponse)
    ∧ (∀ b, resp.getLast? = some b → get_status resp = Except.ok b) := by
  constructor
  · rintro rfl
    rfl
  · intro b hb
    simp [get_status, hb]

/-- Witness for C10 at concrete inputs: the empty response raises the index
error, and a 2-byte response yields its last byte. -/
theorem C10_get_status_last_witness :
    get_status [] = Except.error BLError.emptyStatusResponse
    ∧ get_status [0x31, 0x40] = Except.ok 0x40 :=
  ⟨(C10_get_status_last []).1 rfl,
   (C10_get_status_last [0x31, 0x40]).2 0x40 (by decide)⟩

/-- C3: the connection handshake succeeds exactly when the reply read after
the sync pattern equals the 2-byte ACK token `00 CC`; every other reply,
including the empty one, fails with the protocol error that reports the
unexpected bytes hex-encoded (the source checks once, with no retry). -/
theorem C3_handshake_exact (ret : List Nat) :
    (handshake ret = Except.ok () ↔ ret = ACK)
    ∧ (ret ≠ ACK →
        handshake ret = Except.error (BLError.badHandshake (hexEncode ret)))
    ∧ handshake [] = Except.error (BLError.badHandshake []) := by
  refine ⟨?_, ?_, by decide⟩
  · unfold handshake
    split
    · simp only [true_iff]
      assumption
    · exact iff_of_false (fun h => Except.noConfusion h) (by assumption)
  · intro h
    simp [handshake, h]

/-- Witness for C3 at a concrete input: the 1-byte reply `55` is not the ACK
token, and the handshake fails reporting the hex digits "55". -/
theorem C3_handshake_exact_witness :
    (handshake [0x55] = Except.ok () ↔ [0x55] = ACK)
    ∧ ([0x55] ≠ ACK →
        handshake [0x55] = Except.error (BLError.badHandshake (hexEncode [0x55])))
    ∧ handshake [] = Except.error (BLError.badHandshake []) :=
  C3_handshake_exact [0x55]

/-- C5 (evaluation at the failing input): `read_memory_block` with
`no_of_access = 254` is NOT rejected before I/O — the 9-byte command frame
(with count byte 254) and the three follow-up writes all reach the serial
port; only a count of 256 or more aborts before any write, and then only
because `bytearray` rejects the byte, not through any parameter check. -/
theorem C5_count_254_not_rejected :
    read_memory_block_writes 0x10000000 254
      = [[9, 56, 42, 16, 0, 0, 0, 0, 254], [0x00, 0xCC], [0x03, 0x23, 0x23], [0xCC]]
    ∧ read_memory_block_writes 0x10000000 254 ≠ []
    ∧ (read_memory_block_writes 0x10000000 254).headI = block_packet 0x10000000 254
    ∧ read_memory_block_writes 0x10000000 256 = [] := by
  refine ⟨by decide, by decide, by decide, by decide⟩

/-- Witness for C5's amended reading is not needed (C5 is a closed evaluation);
this theorem additionally confirms that counts of 256 or more are the only
ones stopped before I/O, and only by the byte-range failure of `bytearray`. -/
theorem C5_byte_range_failure (addr count : Nat) (ha : addr < 2 ^ 32)
    (hc : 256 ≤ count) :
    read_memory_block_writes addr count = []
    ∧ (∀ resp statusResp, read_memory_block addr count resp statusResp
        = Except.error BLError.byteOutOfRange) := by
  constructor
  · unfold read_memory_block_writes
    rw [if_pos ha, if_neg (by omega)]
  · intro resp statusResp
    unfold read_memory_block
    rw [if_pos ha, if_neg (by omega)]

/-- Witness for C5_byte_range_failure at address 0x10000000 and count 256. -/
theorem C5_byte_range_failure_witness :
    read_memory_block_writes 0x10000000 256 = []
    ∧ (∀ resp statusResp, read_memory_block 0x10000000 256 resp statusResp
        = Except.error BLError.byteOutOfRange) :=
  C5_byte_range_failure 0x10000000 256 (by norm_num) (by norm_num)

/-- C8 counterexample: the write issued right after reading the buffered
response of `read_memory_block` is `self.ser.write([0x00, 0xcc])` — the
2-byte token, not one single ACK byte. -/
theorem C8_counterexample :
    (read_memory_block_writes 0x10000000 253).getD 1 [] = [0x00, 0xCC]
    ∧ ((read_memory_block_writes 0x10000000 253).getD 1 []).length ≠ 1 := by
  decide

/-- C8 amended: in every `read_memory_block` transaction that reaches the
serial port, the write that follows reading the buffered response is a single
`ser.write` call carrying the 2-byte ACK token `00 CC` (after which the
embedded `get_status` performs its own two writes). -/
theorem C8_trailing_token (addr count : Nat) (ha : addr < 2 ^ 32)
    (hc : count < 256) :
    read_memory_block_writes addr count
      = [block_packet addr count, ACK, [0x03, 0x23, 0x23], [0xCC]]
    ∧ (read_memory_block_writes addr count).getD 1 [] = [0x00, 0xCC] := by
  unfold read_memory_block_writes
  rw [if_pos ha, if_pos hc]
  exact ⟨rfl, rfl⟩

/-- Witness for C8_trailing_token at address 0x10000000 and count 253. -/
theorem C8_trailing_token_witness :
    read_memory_block_writes 0x10000000 253
      = [block_packet 0x10000000 253, ACK, [0x03, 0x23, 0x23], [0xCC]]
    ∧ (read_memory_block_writes 0x10000000 253).getD 1 [] = [0x00, 0xCC] :=
  C8_trailing_token 0x10000000 253 (by norm_num) (by norm_num)

/-- C2 counterexample: the first frame byte the source transmits is the
hardcoded total frame length 9, not the command-body length 7 the claim
names; at address 0x10000000 and count 253 the transmitted frame differs
from the spec-worded frame. -/
theorem C2_counterexample :
    block_packet 0x10000000 253 ≠ block_packet_spec 0x10000000 253
    ∧ (block_packet 0x10000000 253).headI = 9
    ∧ (block_packet_spec 0x10000000 253).headI = 7
    ∧ (block_body 0x10000000 253).length = 7 := by
  decide

/-- C2 amended: the frame is the body (opcode 0x2A, the 4 big-endian address
bytes, access type 0x00, the count) prefixed by the total FRAME length (body
length + 2, i.e. the hardcoded 9) and by the checksum, which is the sum of
all body bytes modulo 256. The big-endian address bytes reconstruct the
address. -/
theorem C2_block_frame (addr count : Nat) (ha : addr < 2 ^ 32)
    (hc1 : 1 ≤ count) (hc2 : count ≤ 253) :
    block_packet addr count
      = ((block_body addr count).length + 2)
          :: (block_body addr count).sum % 256 :: block_body addr count
    ∧ block_body addr count = 0x2A :: (toBytesBE addr 4 ++ [0x00, count])
    ∧ (block_body addr count).length = 7
    ∧ (toBytesBE addr 4).length = 4
    ∧ (toBytesBE addr 4).foldl (fun acc b => 256 * acc + b) 0 = addr
    ∧ checksum (block_body addr count) = (block_body addr count).sum % 256 := by
  have hlen : (block_body addr count).length = 7 := by
    simp [block_body, toBytesBE_length]
  refine ⟨?_, rfl, hlen, toBytesBE_length addr 4, ?_, rfl⟩
  · unfold block_packet
    rw [hlen]
    norm_num [checksum]
  · have ha' : addr < 4294967296 := by
      have h : (2 : Nat) ^ 32 = 4294967296 := by norm_num
      omega
    rw [toBytesBE_foldl addr 4 0]
    have h4 : (256 : Nat) ^ 4 = 4294967296 := by norm_num
    rw [h4]
    omega

/-- Witness for C2_block_frame at address 0x10000000 and count 253. -/
theorem C2_block_frame_witness :
    block_packet 0x10000000 253
      = ((block_body 0x10000000 253).length + 2)
          :: (block_body 0x10000000 253).sum % 256 :: block_body 0x10000000 253
    ∧ block_body 0x10000000 253
        = 0x2A :: (toBytesBE 0x10000000 4 ++ [0x00, 253])
    ∧ (block_body 0x10000000 253).length = 7
    ∧ (toBytesBE 0x10000000 4).length = 4
    ∧ (toBytesBE 0x10000000 4).foldl (fun acc b => 256 * acc + b) 0 = 0x10000000
    ∧ checksum (block_body 0x10000000 253)
        = (block_body 0x10000000 253).sum % 256 :=
  C2_block_frame 0x10000000 253 (by norm_num) (by norm_num) (by norm_num)

/-- C4 counterexample: with the full 4-byte payload received and the device
reporting status 0x45 — a value other than SUCCESS but outside `status_val` —
`read_memory_block` fails through the status-name lookup (`list.index` raises
its own `ValueError`), not with a `DeviceError` naming one of the four
non-success statuses. -/
theorem C4_counterexample :
    read_memory_block 0 4 [0x00, 0xCC, 0x40, 0x00, 1, 2, 3, 4] [0x45]
      = Except.error (BLError.statusNameNotFound 0x45)
    ∧ (extract_payload [0x00, 0xCC, 0x40, 0x00, 1, 2, 3, 4] 4).length = 4
    ∧ read_memory_block 0 4 [0x00, 0xCC, 0x40, 0x00, 1, 2, 3, 4] [0x45]
        ≠ Except.error (BLError.deviceError "COMMAND_RET_UNKNOWN_CMD")
    ∧ read_memory_block 0 4 [0x00, 0xCC, 0x40, 0x00, 1, 2, 3, 4] [0x45]
        ≠ Except.error (BLError.deviceError "COMMAND_RET_INVALID_CMD")
    ∧ read_memory_block 0 4 [0x00, 0xCC, 0x40, 0x00, 1, 2, 3, 4] [0x45]
        ≠ Except.error (BLError.deviceError "COMMAND_RET_INVALID_ADR")
    ∧ read_memory_block 0 4 [0x00, 0xCC, 0x40, 0x00, 1, 2, 3, 4] [0x45]
        ≠ Except.error (BLError.deviceError "COMMAND_RET_FLASH_FAIL") := by
  decide

/-- C4 amended: after the data transfer `read_memory_block` consults
`get_status()`; whenever the returned status byte differs from SUCCESS (0x40)
the call fails even when the payload was fully received — with a
`DeviceError` naming the status when it is one of the `status_val` codes
(UNKNOWN_CMD, INVALID_CMD, INVALID_ADR, FLASH_FAIL), and with the
status-name lookup failure for any other byte. -/
theorem C4_status_failure (addr count status : Nat) (resp statusResp : List Nat)
    (ha : addr < 2 ^ 32) (hc : count < 256)
    (hs : statusResp.getLast? = some status) (hne : status ≠ 0x40) :
    (∀ n, status_name status = some n →
        read_memory_block addr count resp statusResp
          = Except.error (BLError.deviceError n))
    ∧ (status_name status = none →
        read_memory_block addr count resp statusResp
          = Except.error (BLError.statusNameNotFound status))
    ∧ read_memory_block addr count resp statusResp
        ≠ Except.ok (extract_payload resp count) := by
  unfold read_memory_block block_check get_status
  rw [if_pos ha, if_pos hc, hs]
  simp only [if_neg hne]
  refine ⟨?_, ?_, ?_⟩
  · intro n hn
    rw [hn]
  · intro hn
    rw [hn]
  · cases status_name status with
    | some n => exact fun h => Except.noConfusion h
    | none => exact fun h => Except.noConfusion h

/-- Witness for C4_status_failure: status 0x43 on a fully received 4-byte
payload produces the DeviceError named COMMAND_RET_INVALID_ADR. -/
theorem C4_status_failure_witness :
    read_memory_block 0 4 [0x00, 0xCC, 0x40, 0x00, 1, 2, 3, 4] [0x43]
      = Except.error (BLError.deviceError "COMMAND_RET_INVALID_ADR") :=
  (C4_status_failure 0 4 0x43 [0x00, 0xCC, 0x40, 0x00, 1, 2, 3, 4] [0x43]
      (by norm_num) (by norm_num) (by decide) (by decide)).1
    "COMMAND_RET_INVALID_ADR" (by decide)

/-- C6: `read_memory_block` extracts the payload by locating the first 0xCC
byte of the response, skipping 3 bytes past that position and slicing `count`
bytes from there; when the status is SUCCESS, a payload shorter than `count`
fails as an incomplete transfer and a full payload is returned. -/
theorem C6_payload_extraction (resp statusResp : List Nat) (addr count i : Nat)
    (ha : addr < 2 ^ 32) (hc : count < 256)
    (hi : i < resp.length) (hcc : resp.getD i 0 = 0xCC)
    (hfirst : ∀ j, j < i → resp.getD j 0 ≠ 0xCC) :
    extract_payload resp count = (resp.drop (i + 3)).take count
    ∧ (statusResp.getLast? = some 0x40 →
        ((extract_payload resp count).length ≠ count →
            read_memory_block addr count resp statusResp
              = Except.error BLError.incompleteTransfer)
        ∧ ((extract_payload resp count).length = count →
            read_memory_block addr count resp statusResp
              = Except.ok (extract_payload resp count))) := by
  have hfind : findIndex 0xCC resp = some i := findIndex_eq_some _ _ _ hi hcc hfirst
  have hex : extract_payload resp count = (resp.drop (i + 3)).take count := by
    unfold extract_payload pyFind
    rw [hfind]
    have h3 : (((i : Nat) : Int) + 3).toNat = i + 3 := by omega
    rw [h3]
  refine ⟨hex, fun hs => ⟨?_, ?_⟩⟩
  · intro hlen
    unfold read_memory_block block_check get_status
    rw [if_pos ha, if_pos hc, hs]
    simp [hlen]
  · intro hlen
    unfold read_memory_block block_check get_status
    rw [if_pos ha, if_pos hc, hs]
    simp [hlen]

/-- Witness for C6_payload_extraction: a 9-byte response whose first 0xCC is
at index 1; the 4-byte slice starts at index 4 and is returned on SUCCESS. -/
theorem C6_payload_extraction_witness :
    extract_payload [0x00, 0xCC, 0x40, 0x00, 5, 6, 7, 8] 4
      = ([0x00, 0xCC, 0x40, 0x00, 5, 6, 7, 8].drop (1 + 3)).take 4
    ∧ read_memory_block 0 4 [0x00, 0xCC, 0x40, 0x00, 5, 6, 7, 8] [0x40]
        = Except.ok (extract_payload [0x00, 0xCC, 0x40, 0x00, 5, 6, 7, 8] 4) :=
  have h := C6_payload_extraction [0x00, 0xCC, 0x40, 0x00, 5, 6, 7, 8] [0x40]
    0 4 1 (by norm_num) (by norm_num) (by decide) (by decide)
    (fun j hj => by interval_cases j <;> decide)
  ⟨h.1, (h.2 (by decide)).2 (by decide)⟩

/-- C7: the checksum is a pure function of the frame body — equal bodies give
the identical checksum byte — and changing any single body byte to a
different byte value changes the mod-256 checksum. -/
theorem C7_checksum_function (addr1 count1 addr2 count2 : Nat)
    (hc1 : count1 < 256)
    (heq : block_body addr1 count1 = block_body addr2 count2) :
    checksum (block_body addr1 count1) = checksum (block_body addr2 count2)
    ∧ ∀ i b, i < (block_body addr1 count1).length → b < 256 →
        b ≠ (block_body addr1 count1).getD i 0 →
        checksum ((block_body addr1 count1).set i b)
          ≠ checksum (block_body addr1 count1) := by
  refine ⟨by rw [heq], ?_⟩
  intro i b hi hb hne
  apply checksum_set_ne _ _ _ hi _ hb hne
  intro x hx
  simp only [block_body, List.mem_cons, List.mem_append, List.mem_singleton,
    List.not_mem_nil, or_false] at hx
  rcases hx with rfl | hx | rfl | rfl
  · norm_num
  · exact toBytesBE_lt addr1 4 x hx
  · norm_num
  · omega

/-- Witness for C7_checksum_function: the body for (0x10000000, 253) equals
itself and flipping its final byte from 253 to 0 changes the checksum. -/
theorem C7_checksum_function_witness :
    checksum (block_body 0x10000000 253) = checksum (block_body 0x10000000 253)
    ∧ checksum ((block_body 0x10000000 253).set 6 0)
        ≠ checksum (block_body 0x10000000 253) :=
  have h := C7_checksum_function 0x10000000 253 0x10000000 253 (by norm_num) rfl
  ⟨h.1, h.2 6 0 (by decide) (by decide) (by decide)⟩

/-- C9: when the response buffer contains no 0xCC byte at all, the marker
search of `read_memory_block` yields -1, the payload slice silently starts at
fixed offset 2 of the raw buffer, and the call proceeds to the ordinary
status and payload-length checks (there is no missing-marker failure mode). -/
theorem C9_no_marker (resp statusResp : List Nat) (addr count : Nat)
    (ha : addr < 2 ^ 32) (hc : count < 256)
    (hno : ∀ x ∈ resp, x ≠ 0xCC) :
    pyFind resp 0xCC = -1
    ∧ extract_payload resp count = (resp.drop 2).take count
    ∧ read_memory_block addr count resp statusResp
        = block_check count ((resp.drop 2).take count) statusResp := by
  have hfind : findIndex 0xCC resp = none := findIndex_eq_none _ _ hno
  have hpy : pyFind resp 0xCC = -1 := by
    unfold pyFind
    rw [hfind]
  have hex : extract_payload resp count = (resp.drop 2).take count := by
    unfold extract_payload
    rw [hpy]
    have h2 : ((-1 : Int) + 3).toNat = 2 := by decide
    rw [h2]
  refine ⟨hpy, hex, ?_⟩
  unfold read_memory_block
  rw [if_pos ha, if_pos hc, hex]

/-- Witness for C9_no_marker: a marker-free 5-byte buffer; the slice starts
at offset 2 and an incomplete 3-byte payload surfaces only through the
length check. -/
theorem C9_no_marker_witness :
    pyFind [1, 2, 3, 4, 5] 0xCC = -1
    ∧ extract_payload [1, 2, 3, 4, 5] 4 = ([1, 2, 3, 4, 5].drop 2).take 4
    ∧ read_memory_block 0 4 [1, 2, 3, 4, 5] [0x40]
        = block_check 4 (([1, 2, 3, 4, 5].drop 2).take 4) [0x40] :=
  C9_no_marker [1, 2, 3, 4, 5] [0x40] 0 4 (by norm_num) (by norm_num)
    (fun x hx => by fin_cases hx <;> decide)

/-- C1: for `addr_stop > addr_start`, when every block read returns its
requested byte count, `read_memory_region` returns the concatenation, in
ascending address order, of its constituent block reads — `(addr_stop -
addr_start) / 253` full 253-byte reads at consecutive addresses followed by
one final read of the remainder — and the result has exactly `addr_stop -
addr_start` bytes; for the range 0x10000000..0x1001cc00 that is 465 full
block reads plus a final 115-byte read and a 117,760-byte result. -/
theorem C1_read_memory_region (mem : Nat → Nat → List Nat)
    (addr_start addr_stop : Nat) (hlt : addr_start < addr_stop)
    (hmem : ∀ a c, (mem a c).length = c) :
    read_memory_region mem addr_start addr_stop
      = (region_trace addr_start addr_stop).flatMap (fun p => mem p.1 p.2)
    ∧ (read_memory_region mem addr_start addr_stop).length
        = addr_stop - addr_start
    ∧ region_trace addr_start addr_stop
        = (List.range ((addr_stop - addr_start) / 253)).map
            (fun i => (addr_start + 253 * i, 253))
          ++ [(addr_start + 253 * ((addr_stop - addr_start) / 253),
               (addr_stop - addr_start) % 253)]
    ∧ (addr_start = 0x10000000 → addr_stop = 0x1001cc00 →
        (addr_stop - addr_start) / 253 = 465
        ∧ (addr_stop - addr_start) % 253 = 115
        ∧ (region_trace addr_start addr_stop).length = 466
        ∧ (read_memory_region mem addr_start addr_stop).length = 117760) := by
  have hflat : read_memory_region mem addr_start addr_stop
      = (region_trace addr_start addr_stop).flatMap (fun p => mem p.1 p.2) := by
    unfold read_memory_region region_trace
    rw [List.flatMap_append, region_loop_eq_flatMap]
    simp
  have hlen : (read_memory_region mem addr_start addr_stop).length
      = addr_stop - addr_start := by
    unfold read_memory_region
    rw [List.length_append, region_loop_length mem hmem, hmem]
    omega
  have htrace : region_trace addr_start addr_stop
      = (List.range ((addr_stop - addr_start) / 253)).map
          (fun i => (addr_start + 253 * i, 253))
        ++ [(addr_start + 253 * ((addr_stop - addr_start) / 253),
             (addr_stop - addr_start) % 253)] := by
    unfold region_trace
    rw [trace_loop_eq_range]
    have hrem : addr_stop - (addr_start + 253 * ((addr_stop - addr_start) / 253))
        = (addr_stop - addr_start) % 253 := by omega
    rw [hrem]
  refine ⟨hflat, hlen, htrace, ?_⟩
  rintro rfl rfl
  have hdiv : ((0x1001cc00 : Nat) - 0x10000000) / 253 = 465 := by norm_num
  have hmod : ((0x1001cc00 : Nat) - 0x10000000) % 253 = 115 := by norm_num
  refine ⟨hdiv, hmod, ?_, ?_⟩
  · rw [htrace]
    simp [hdiv]
  · rw [hlen]

/-- Witness for C1_read_memory_region: an ideal device that returns `count`
zero bytes for every block read; the region 0x10000000..0x1001cc00 yields a
117,760-byte result from a 466-request trace whose division into full blocks
and remainder is 465 and 115. -/
theorem C1_read_memory_region_witness :
    ((0x1001cc00 : Nat) - 0x10000000) / 253 = 465
    ∧ ((0x1001cc00 : Nat) - 0x10000000) % 253 = 115
    ∧ (region_trace 0x10000000 0x1001cc00).length = 466
    ∧ (read_memory_region (fun _ c => List.replicate c 0)
        0x10000000 0x1001cc00).length = 117760 :=
  (C1_read_memory_region (fun _ c => List.replicate c 0) 0x10000000 0x1001cc00
      (by norm_num) (fun a c => by simp)).2.2.2 rfl rfl
